import Mathlib

/-
Verification of the span-stack manager in src/src/trace.ts (class Trace and
its SpanWrapper controller) as a shallow embedding.

Modelling choices, all taken from the source:
* A span handle is identified by the index at which the external tracer
  created it, so the SDK-owned store of spans is a list SpanData indexed by
  that identity.  Reference equality of span objects (the source compares
  spans with !==) becomes equality of indices.
* A span object is mutable in the source; here every mutation is a pure
  update of the SpanData at the span's index.  setAttribute keeps a write
  log with the most recent write first, so the value a span carries for a
  key is the head-most entry for that key (last write wins).
* TimeInput, Status and Context of the SDK are opaque to the source, so
  they are modelled as Nat (Status, Context) and Option Nat (an optional
  TimeInput argument; none models an omitted argument).
* The commonAttributes field is a plain JS object with string keys; it is
  modelled as an association list with JS property-assignment semantics:
  assigning to an existing key replaces the value in place, assigning to a
  fresh key appends it.
* The wrapper object spanRef returned by startSpan is identified by the
  span it captures.  Each wrapper method returns the runtime value the
  arrow function returns: some sid when the source returns spanRef, none
  when the body has no return statement (end, whose declared type is void).
-/

/-- An attribute key/value pair; values are strings as in the source. -/
abbrev Attr := String × String

/-- The attributesOrStartTime argument of span.addEvent: either an
attribute collection or a time. -/
inductive AttrsOrTime where
  | attrs : List Attr → AttrsOrTime
  | time : Nat → AttrsOrTime
deriving DecidableEq, Repr

/-- Arguments recorded for one span.addEvent call: the event name, the
optional attributesOrStartTime argument, and the optional startTime
argument. -/
abbrev EventArg := String × Option AttrsOrTime × Option Nat

/-- The observable state of one SDK span created by the tracer: its name,
the parent recorded at creation, the setAttribute write log (most recent
first), the addEvent log, the setStatus log, the log of SDK end calls
(most recent first, each with its optional end time), and the opaque
context forwarded at creation. -/
structure SpanData where
  name : String
  parent : Option Nat
  attrs : List Attr
  events : List EventArg
  statusLog : List Nat
  endLog : List (Option Nat)
  ctx : Option Nat
deriving DecidableEq, Repr

/-- span.setAttribute(key, value): prepend the write to the log. -/
def SpanData.setAttribute (s : SpanData) (key value : String) : SpanData :=
  { s with attrs := (key, value) :: s.attrs }

/-- span.setAttributes(map): one setAttribute per entry, in list order. -/
def SpanData.setAttributes (s : SpanData) (m : List Attr) : SpanData :=
  m.foldl (fun s' p => s'.setAttribute p.1 p.2) s

/-- span.addEvent(name, attributesOrStartTime?, startTime?). -/
def SpanData.addEvent (s : SpanData) (n : String) (aot : Option AttrsOrTime)
    (st : Option Nat) : SpanData :=
  { s with events := (n, aot, st) :: s.events }

/-- span.setStatus(status). -/
def SpanData.setStatus (s : SpanData) (code : Nat) : SpanData :=
  { s with statusLog := code :: s.statusLog }

/-- span.updateName(name). -/
def SpanData.updateName (s : SpanData) (n : String) : SpanData :=
  { s with name := n }

/-- span.end(endTime?) of the SDK: record the call and its time argument. -/
def SpanData.sdkEnd (s : SpanData) (endTime : Option Nat) : SpanData :=
  { s with endLog := endTime :: s.endLog }

/-- First binding for a key in an association list.  On a setAttribute
write log (most recent first) this is the value the span carries. -/
def lookupA (key : String) : List Attr → Option String
  | [] => none
  | p :: rest => if p.1 = key then some p.2 else lookupA key rest

/-- Update the element at one index of a list in place (the pure image of
mutating the object that a JS array slot references); out-of-range
indices leave the list unchanged. -/
def modifyAt {α : Type} : List α → Nat → (α → α) → List α
  | [], _, _ => []
  | x :: rest, 0, f => f x :: rest
  | x :: rest, i + 1, f => x :: modifyAt rest i f

/-- JS object property assignment m[key] = value on an association list:
an existing key keeps its position and every binding of that key is
replaced; a fresh key is appended. -/
def setCommon (m : List Attr) (key value : String) : List Attr :=
  if m.any (fun p => p.1 = key) then
    m.map (fun p => if p.1 = key then (key, value) else p)
  else
    m ++ [(key, value)]

/-- The Trace manager together with the store of spans its tracer has
created.  spans models the external SDK side (the tracer field of the
source); spanStack and commonAttributes are the two private fields of
class Trace. -/
structure Trace where
  spans : List SpanData
  spanStack : List Nat
  commonAttributes : List Attr
deriving DecidableEq, Repr

/-- constructor Trace(tracer): both private fields start empty. -/
def Trace.new : Trace :=
  { spans := [], spanStack := [], commonAttributes := [] }

/-- getSpanStack(): returns the stack contents; the manager itself is
returned unchanged (the copy/aliasing aspect of the spread is modelled
separately on the array heap below). -/
def Trace.getSpanStack (t : Trace) : Trace × List Nat :=
  (t, t.spanStack)

/-- addCommonAttribute(key, value): setAttribute on every span currently
in spanStack, in stack order, then the property assignment
commonAttributes[key] = value. -/
def Trace.addCommonAttribute (t : Trace) (key value : String) : Trace :=
  { t with
    spans := (t.spanStack.foldl
      (fun sp sid => modifyAt sp sid (fun s => s.setAttribute key value)) t.spans),
    commonAttributes := setCommon t.commonAttributes key value }

/-- tracer.startSpan(name, { parent, attributes }, context): the SDK
creates a fresh span carrying the given parent and the initial
attributes (written in order), and hands back its identity. -/
def Tracer.startSpan (spans : List SpanData) (name : String) (parent : Option Nat)
    (attributes : List Attr) (ctx : Option Nat) : List SpanData × Nat :=
  let span := SpanData.setAttributes
    { name := name, parent := parent, attrs := [], events := [],
      statusLog := [], endLog := [], ctx := ctx } attributes
  (spans ++ [span], spans.length)

/-- Trace.startSpan(name, attributes?, context?): parent is the last
element of spanStack when the stack is non-empty, else undefined; the
tracer creates the span, then all commonAttributes are applied to it,
then its handle is pushed.  Returns the new state and the identity of
the created span (which also identifies the returned wrapper). -/
def Trace.startSpan (t : Trace) (name : String) (attributes : List Attr)
    (ctx : Option Nat) : Trace × Nat :=
  let parent := t.spanStack.getLast?
  let created := Tracer.startSpan t.spans name parent attributes ctx
  let spans2 := modifyAt created.1 created.2
    (fun s => s.setAttributes t.commonAttributes)
  ({ t with spans := spans2, spanStack := t.spanStack ++ [created.2] }, created.2)

/-- private endSpan(span, endTime?): empty stack tags error_empty_stack;
a non-top span tags error_not_top and pops nothing; the top span is
popped (slice(0, length - 1)).  In every case span.end(endTime) runs. -/
def Trace.endSpan (t : Trace) (span : Nat) (endTime : Option Nat) : Trace :=
  let t1 :=
    if t.spanStack.length = 0 then
      { t with spans := (modifyAt t.spans span
          (fun s => s.setAttribute "span_status" "error_empty_stack")) }
    else if t.spanStack.getLast? ≠ some span then
      { t with spans := (modifyAt t.spans span
          (fun s => s.setAttribute "span_status" "error_not_top")) }
    else
      { t with spanStack := t.spanStack.dropLast }
  { t1 with spans := modifyAt t1.spans span (fun s => s.sdkEnd endTime) }

/-- spanRef.setAttribute(key, value): forwards and returns spanRef. -/
def spanRefSetAttribute (t : Trace) (sid : Nat) (key value : String) :
    Trace × Option Nat :=
  ({ t with spans := modifyAt t.spans sid (fun s => s.setAttribute key value) },
   some sid)

/-- spanRef.setAttributes(attributes): forwards and returns spanRef. -/
def spanRefSetAttributes (t : Trace) (sid : Nat) (m : List Attr) :
    Trace × Option Nat :=
  ({ t with spans := modifyAt t.spans sid (fun s => s.setAttributes m) }, some sid)

/-- spanRef.addEvent(name, attributesOrStartTime?, startTime?): forwards
and returns spanRef. -/
def spanRefAddEvent (t : Trace) (sid : Nat) (n : String)
    (aot : Option AttrsOrTime) (st : Option Nat) : Trace × Option Nat :=
  ({ t with spans := modifyAt t.spans sid (fun s => s.addEvent n aot st) }, some sid)

/-- spanRef.setStatus(status): forwards and returns spanRef. -/
def spanRefSetStatus (t : Trace) (sid : Nat) (code : Nat) : Trace × Option Nat :=
  ({ t with spans := modifyAt t.spans sid (fun s => s.setStatus code) }, some sid)

/-- spanRef.updateName(name): forwards and returns spanRef. -/
def spanRefUpdateName (t : Trace) (sid : Nat) (n : String) : Trace × Option Nat :=
  ({ t with spans := modifyAt t.spans sid (fun s => s.updateName n) }, some sid)

/-- spanRef.end(endTime?): calls the manager's endSpan; the arrow body has
no return statement, so the call evaluates to undefined (none). -/
def spanRefEnd (t : Trace) (sid : Nat) (endTime : Option Nat) : Trace × Option Nat :=
  (t.endSpan sid endTime, none)

/-- The attribute value span sid currently carries for a key. -/
def Trace.spanAttr (t : Trace) (sid : Nat) (key : String) : Option String :=
  t.spans[sid]?.bind (fun s => lookupA key s.attrs)

/-- The parent recorded for span sid at its creation. -/
def Trace.spanParent (t : Trace) (sid : Nat) : Option Nat :=
  t.spans[sid]?.bind SpanData.parent

/-- The log of SDK end calls on span sid (most recent first). -/
def Trace.spanEndLog (t : Trace) (sid : Nat) : List (Option Nat) :=
  (t.spans[sid]?.map SpanData.endLog).getD []

/-- Run a sequence of startSpan calls (name and initial attributes each)
on a fresh Trace manager, with no interleaved end. -/
def runStarts (calls : List (String × List Attr)) : Trace :=
  calls.foldl (fun t c => (t.startSpan c.1 c.2 none).1) Trace.new

/-
A minimal JS array heap, used only to state what the spread copy in
getSpanStack means: return [...this.spanStack] allocates a NEW array
whose contents equal the stack's contents, so the reference handed to
the caller is distinct from the manager's own array and mutating it
cannot reach the manager's array.
-/

/-- A heap of JS arrays of span handles; a reference is an index. -/
structure Heap where
  arrays : List (List Nat)
deriving DecidableEq, Repr

/-- Contents of the array a reference designates. -/
def Heap.read (h : Heap) (r : Nat) : List Nat :=
  h.arrays[r]?.getD []

/-- Allocate a fresh array with the given contents; returns the heap and
the new reference. -/
def Heap.alloc (h : Heap) (contents : List Nat) : Heap × Nat :=
  ({ arrays := h.arrays ++ [contents] }, h.arrays.length)

/-- Overwrite the contents of one array (any caller-side mutation of the
array a reference designates ends in some such contents). -/
def Heap.write (h : Heap) (r : Nat) (contents : List Nat) : Heap :=
  { arrays := modifyAt h.arrays r (fun _ => contents) }

/-- getSpanStack() on the array heap: [...this.spanStack] allocates a new
array holding a copy of the stack array's contents. -/
def getSpanStackAlloc (h : Heap) (stackRef : Nat) : Heap × Nat :=
  h.alloc (h.read stackRef)

/-
Basic lemmas about the building blocks.
-/

theorem modifyAt_length {α : Type} (l : List α) (i : Nat) (f : α → α) :
    (modifyAt l i f).length = l.length := by
  induction l generalizing i with
  | nil => rfl
  | cons x rest ih =>
    cases i with
    | zero => rfl
    | succ j => simp [modifyAt, ih]

theorem modifyAt_getElem?_self {α : Type} (l : List α) (i : Nat) (f : α → α) :
    (modifyAt l i f)[i]? = l[i]?.map f := by
  induction l generalizing i with
  | nil => rfl
  | cons x rest ih =>
    cases i with
    | zero => simp [modifyAt]
    | succ j => simpa [modifyAt] using ih j

theorem modifyAt_getElem?_ne {α : Type} (l : List α) (i j : Nat) (f : α → α)
    (h : j ≠ i) : (modifyAt l i f)[j]? = l[j]? := by
  induction l generalizing i j with
  | nil => rfl
  | cons x rest ih =>
    cases i with
    | zero =>
      cases j with
      | zero => exact absurd rfl h
      | succ j' => simp [modifyAt]
    | succ i' =>
      cases j with
      | zero => simp [modifyAt]
      | succ j' =>
        simp only [modifyAt, List.getElem?_cons_succ]
        exact ih i' j' (fun hc => h (by simp [hc]))

theorem setAttributes_eq (s : SpanData) (m : List Attr) :
    s.setAttributes m = { s with attrs := m.reverse ++ s.attrs } := by
  induction m generalizing s with
  | nil => rfl
  | cons p rest ih =>
    show SpanData.setAttributes (s.setAttribute p.1 p.2) rest = _
    rw [ih]
    simp [SpanData.setAttribute, List.reverse_cons]

theorem lookupA_append (k : String) (l1 l2 : List Attr) :
    lookupA k (l1 ++ l2) =
      match lookupA k l1 with
      | some v => some v
      | none => lookupA k l2 := by
  induction l1 with
  | nil => rfl
  | cons p rest ih =>
    by_cases h : p.1 = k <;> simp [lookupA, h, ih]

theorem lookupA_eq_none_of_not_mem (k : String) (l : List Attr)
    (h : k ∉ l.map Prod.fst) : lookupA k l = none := by
  induction l with
  | nil => rfl
  | cons p rest ih =>
    simp only [List.map_cons, List.mem_cons, not_or] at h
    have hne : p.1 ≠ k := fun he => h.1 he.symm
    simp [lookupA, hne, ih h.2]

theorem lookupA_eq_some_of_all (k v : String) (l : List Attr)
    (hall : ∀ p ∈ l, p.1 = k → p.2 = v) (hmem : k ∈ l.map Prod.fst) :
    lookupA k l = some v := by
  induction l with
  | nil => simp at hmem
  | cons p rest ih =>
    by_cases h : p.1 = k
    · simp [lookupA, h, hall p (List.mem_cons_self p rest) h]
    · simp only [List.map_cons, List.mem_cons] at hmem
      rcases hmem with hmem | hmem
      · exact absurd hmem.symm h
      · simp only [lookupA, h, if_neg h]
        exact ih (fun q hq => hall q (List.mem_cons_of_mem p hq)) hmem

theorem lookupA_reverse_of_nodup (k : String) (l : List Attr)
    (h : (l.map Prod.fst).Nodup) : lookupA k l.reverse = lookupA k l := by
  induction l with
  | nil => rfl
  | cons p rest ih =>
    simp only [List.map_cons, List.nodup_cons] at h
    rw [List.reverse_cons, lookupA_append]
    by_cases hk : p.1 = k
    · have : k ∉ rest.map Prod.fst := hk ▸ h.1
      have h1 : lookupA k rest.reverse = none := by
        apply lookupA_eq_none_of_not_mem
        intro hc
        rw [List.map_reverse, List.mem_reverse] at hc
        exact this hc
      simp [h1, lookupA, hk]
    · rw [ih h.2]
      by_cases hr : lookupA k rest = none
      · simp [hr, lookupA, hk]
      · rcases Option.ne_none_iff_exists'.mp hr with ⟨v, hv⟩
        simp [hv, lookupA, hk]

theorem setCommon_all_eq (m : List Attr) (k v : String) :
    ∀ p ∈ setCommon m k v, p.1 = k → p.2 = v := by
  intro p hp hk
  unfold setCommon at hp
  split at hp
  · rcases List.mem_map.mp hp with ⟨q, hq, hqe⟩
    by_cases hq1 : q.1 = k
    · rw [if_pos hq1] at hqe
      rw [← hqe]
    · rw [if_neg hq1] at hqe
      subst hqe
      exact absurd hk hq1
  · next hany =>
    rcases List.mem_append.mp hp with hp | hp
    · exact absurd (List.any_eq_true.mpr ⟨p, hp, by simpa using hk⟩) hany
    · simp only [List.mem_singleton] at hp
      subst hp
      rfl

theorem setCommon_mem_keys (m : List Attr) (k v : String) :
    k ∈ (setCommon m k v).map Prod.fst := by
  unfold setCommon
  split
  · next hany =>
    rcases List.any_eq_true.mp hany with ⟨q, hq, hk⟩
    apply List.mem_map.mpr
    refine ⟨(k, v), ?_, rfl⟩
    apply List.mem_map.mpr
    exact ⟨q, hq, by simp [of_decide_eq_true hk]⟩
  · simp

theorem lookupA_setCommon (m : List Attr) (k v : String) :
    lookupA k (setCommon m k v) = some v :=
  lookupA_eq_some_of_all k v _ (setCommon_all_eq m k v) (setCommon_mem_keys m k v)

theorem lookupA_setCommon_reverse (m : List Attr) (k v : String) :
    lookupA k (setCommon m k v).reverse = some v := by
  apply lookupA_eq_some_of_all
  · intro p hp
    exact setCommon_all_eq m k v p (List.mem_reverse.mp hp)
  · rw [List.map_reverse, List.mem_reverse]
    exact setCommon_mem_keys m k v

/-
Lemmas about startSpan.
-/

theorem startSpan_snd (t : Trace) (n : String) (a : List Attr) (c : Option Nat) :
    (t.startSpan n a c).2 = t.spans.length := rfl

theorem startSpan_spanStack (t : Trace) (n : String) (a : List Attr) (c : Option Nat) :
    (t.startSpan n a c).1.spanStack = t.spanStack ++ [t.spans.length] := rfl

theorem startSpan_commonAttributes (t : Trace) (n : String) (a : List Attr)
    (c : Option Nat) :
    (t.startSpan n a c).1.commonAttributes = t.commonAttributes := rfl

theorem startSpan_spans_length (t : Trace) (n : String) (a : List Attr)
    (c : Option Nat) :
    (t.startSpan n a c).1.spans.length = t.spans.length + 1 := by
  simp only [Trace.startSpan, Tracer.startSpan]
  rw [modifyAt_length]
  simp

theorem startSpan_spans_getElem?_old (t : Trace) (n : String) (a : List Attr)
    (c : Option Nat) (sid : Nat) (h : sid < t.spans.length) :
    (t.startSpan n a c).1.spans[sid]? = t.spans[sid]? := by
  simp only [Trace.startSpan, Tracer.startSpan]
  rw [modifyAt_getElem?_ne _ _ _ _ (Nat.ne_of_lt h)]
  exact List.getElem?_append_left h

theorem startSpan_spans_getElem?_new (t : Trace) (n : String) (a : List Attr)
    (c : Option Nat) :
    (t.startSpan n a c).1.spans[t.spans.length]? =
      some { name := n, parent := t.spanStack.getLast?,
             attrs := t.commonAttributes.reverse ++ a.reverse,
             events := [], statusLog := [], endLog := [], ctx := c } := by
  simp only [Trace.startSpan, Tracer.startSpan]
  rw [modifyAt_getElem?_self, List.getElem?_concat_length]
  simp [setAttributes_eq]

/-
Lemmas about endSpan.
-/

theorem endSpan_spanStack (t : Trace) (sid : Nat) (et : Option Nat) :
    (t.endSpan sid et).spanStack =
      if t.spanStack ≠ [] ∧ t.spanStack.getLast? = some sid then t.spanStack.dropLast
      else t.spanStack := by
  unfold Trace.endSpan
  by_cases h0 : t.spanStack.length = 0
  · have he : t.spanStack = [] := List.length_eq_zero.mp h0
    simp [he]
  · have hne : t.spanStack ≠ [] := fun hc => h0 (by simp [hc])
    by_cases h1 : t.spanStack.getLast? = some sid
    · simp [h0, h1, hne]
    · simp [h0, h1]

theorem endSpan_spans_getElem?_ne (t : Trace) (sid j : Nat) (et : Option Nat)
    (h : j ≠ sid) : (t.endSpan sid et).spans[j]? = t.spans[j]? := by
  unfold Trace.endSpan
  by_cases h0 : t.spanStack.length = 0
  · simp only [if_pos h0]
    rw [modifyAt_getElem?_ne _ _ _ _ h, modifyAt_getElem?_ne _ _ _ _ h]
  · by_cases h1 : t.spanStack.getLast? ≠ some sid
    · simp only [if_neg h0, if_pos h1]
      rw [modifyAt_getElem?_ne _ _ _ _ h, modifyAt_getElem?_ne _ _ _ _ h]
    · simp only [if_neg h0, if_neg h1]
      rw [modifyAt_getElem?_ne _ _ _ _ h]

theorem endSpan_spans_getElem?_self (t : Trace) (sid : Nat) (et : Option Nat) :
    (t.endSpan sid et).spans[sid]? =
      if t.spanStack.length = 0 then
        t.spans[sid]?.map
          (fun s => (s.setAttribute "span_status" "error_empty_stack").sdkEnd et)
      else if t.spanStack.getLast? ≠ some sid then
        t.spans[sid]?.map
          (fun s => (s.setAttribute "span_status" "error_not_top").sdkEnd et)
      else
        t.spans[sid]?.map (fun s => s.sdkEnd et) := by
  unfold Trace.endSpan
  by_cases h0 : t.spanStack.length = 0
  · simp only [if_pos h0, modifyAt_getElem?_self, Option.map_map]
    rfl
  · by_cases h1 : t.spanStack.getLast? ≠ some sid
    · simp only [if_neg h0, if_pos h1, modifyAt_getElem?_self, Option.map_map]
      rfl
    · simp only [if_neg h0, if_neg h1, modifyAt_getElem?_self]

theorem endSpan_commonAttributes (t : Trace) (sid : Nat) (et : Option Nat) :
    (t.endSpan sid et).commonAttributes = t.commonAttributes := by
  rcases eq_or_ne t.spanStack [] with he | he
  · simp [Trace.endSpan, he]
  · by_cases h1 : t.spanStack.getLast? = some sid <;>
      simp [Trace.endSpan, he, h1, List.length_eq_zero]

/-
Lemmas about the setAttribute loop of addCommonAttribute.
-/

theorem foldTag_length (ids : List Nat) (sp : List SpanData) (k v : String) :
    (ids.foldl (fun sp2 i => modifyAt sp2 i (fun s => s.setAttribute k v)) sp).length
      = sp.length := by
  induction ids generalizing sp with
  | nil => rfl
  | cons i rest ih =>
    simp only [List.foldl_cons]
    rw [ih, modifyAt_length]

theorem foldTag_getElem?_not_mem (ids : List Nat) (sp : List SpanData) (k v : String)
    (sid : Nat) (h : sid ∉ ids) :
    (ids.foldl (fun sp2 i => modifyAt sp2 i (fun s => s.setAttribute k v)) sp)[sid]?
      = sp[sid]? := by
  induction ids generalizing sp with
  | nil => rfl
  | cons i rest ih =>
    simp only [List.foldl_cons]
    rw [ih _ (fun hc => h (List.mem_cons_of_mem i hc))]
    exact modifyAt_getElem?_ne _ _ _ _ (fun hc => h (hc ▸ List.mem_cons_self i rest))

theorem foldTag_attr_mem (ids : List Nat) (sp : List SpanData) (k v : String)
    (sid : Nat) (hlt : sid < sp.length) (hm : sid ∈ ids) :
    ∃ s, (ids.foldl (fun sp2 i => modifyAt sp2 i (fun s2 => s2.setAttribute k v)) sp)[sid]?
        = some s ∧ lookupA k s.attrs = some v := by
  induction ids generalizing sp with
  | nil => simp at hm
  | cons i rest ih =>
    simp only [List.foldl_cons]
    by_cases hr : sid ∈ rest
    · exact ih _ (by rw [modifyAt_length]; exact hlt) hr
    · have hsi : sid = i := by
        rcases List.mem_cons.mp hm with h | h
        · exact h
        · exact absurd h hr
      subst hsi
      rw [foldTag_getElem?_not_mem rest _ _ _ _ hr, modifyAt_getElem?_self]
      obtain ⟨x, hx⟩ : ∃ x, sp[sid]? = some x := ⟨_, List.getElem?_eq_getElem hlt⟩
      rw [hx]
      exact ⟨_, rfl, by simp [SpanData.setAttribute, lookupA]⟩

/-
The invariant describing a fresh trace after a sequence of startSpan
calls with no interleaved end: the stack holds exactly the span ids in
creation order, and each span after the first has the previous one as
parent.
-/

def startsInv (t : Trace) : Prop :=
  t.spanStack = List.range t.spans.length ∧
  ∀ i, i < t.spans.length →
    t.spanParent i = if i = 0 then none else some (i - 1)

theorem range_getLast? (n : Nat) :
    (List.range n).getLast? = if n = 0 then none else some (n - 1) := by
  cases n with
  | zero => rfl
  | succ m => rw [List.range_succ, List.getLast?_concat]; simp

theorem startsInv_startSpan (t : Trace) (n : String) (a : List Attr) (c : Option Nat)
    (h : startsInv t) : startsInv (t.startSpan n a c).1 := by
  obtain ⟨h1, h2⟩ := h
  constructor
  · rw [startSpan_spanStack, startSpan_spans_length, h1, List.range_succ]
  · intro i hi
    rw [startSpan_spans_length] at hi
    rcases Nat.lt_or_ge i t.spans.length with hlt | hge
    · unfold Trace.spanParent
      rw [startSpan_spans_getElem?_old t n a c i hlt]
      exact h2 i hlt
    · have hie : i = t.spans.length := Nat.le_antisymm (Nat.lt_succ_iff.mp hi) hge
      subst hie
      unfold Trace.spanParent
      rw [startSpan_spans_getElem?_new, h1, range_getLast?]
      simp

theorem startsInv_foldStarts (calls : List (String × List Attr)) (t : Trace)
    (h : startsInv t) :
    startsInv (calls.foldl (fun t2 c => (t2.startSpan c.1 c.2 none).1) t) := by
  induction calls generalizing t with
  | nil => exact h
  | cons c rest ih =>
    exact ih _ (startsInv_startSpan t c.1 c.2 none h)

theorem startsInv_runStarts (calls : List (String × List Attr)) :
    startsInv (runStarts calls) := by
  apply startsInv_foldStarts
  exact ⟨rfl, fun i hi => by simp [Trace.new] at hi⟩

theorem foldStarts_spans_length (calls : List (String × List Attr)) (t : Trace) :
    (calls.foldl (fun t2 c => (t2.startSpan c.1 c.2 none).1) t).spans.length
      = t.spans.length + calls.length := by
  induction calls generalizing t with
  | nil => rfl
  | cons c rest ih =>
    simp only [List.foldl_cons, List.length_cons]
    rw [ih, startSpan_spans_length]
    omega

theorem runStarts_spans_length (calls : List (String × List Attr)) :
    (runStarts calls).spans.length = calls.length := by
  unfold runStarts
  rw [foldStarts_spans_length]
  simp [Trace.new]

/-
Projections of addCommonAttribute, and the key-set behaviour of an
overwriting property assignment.
-/

theorem addCommonAttribute_spans_length (t : Trace) (k v : String) :
    (t.addCommonAttribute k v).spans.length = t.spans.length :=
  foldTag_length t.spanStack t.spans k v

theorem addCommonAttribute_commonAttributes (t : Trace) (k v : String) :
    (t.addCommonAttribute k v).commonAttributes = setCommon t.commonAttributes k v :=
  rfl

theorem addCommonAttribute_spanStack (t : Trace) (k v : String) :
    (t.addCommonAttribute k v).spanStack = t.spanStack := rfl

theorem setCommon_keys_of_mem (m : List Attr) (k v : String)
    (h : k ∈ m.map Prod.fst) : (setCommon m k v).map Prod.fst = m.map Prod.fst := by
  unfold setCommon
  rcases List.mem_map.mp h with ⟨p, hp, hpk⟩
  rw [if_pos (List.any_eq_true.mpr ⟨p, hp, by simpa using hpk⟩), List.map_map]
  apply List.map_congr_left
  intro q _
  by_cases hq : q.1 = k
  · simp [hq]
  · simp [hq]

/-
Claim theorems.
-/

/-- C10: every Trace operation changes spanStack in at most one of two
ways: startSpan appends exactly the new span handle at the end, endSpan
either leaves the stack exactly unchanged or removes exactly its last
entry, and addCommonAttribute and getSpanStack never change it. -/
theorem trace_stack_step (t : Trace) (n : String) (a : List Attr) (c : Option Nat)
    (k v : String) (sid : Nat) (et : Option Nat) :
    (t.startSpan n a c).1.spanStack = t.spanStack ++ [t.spans.length] ∧
    ((t.endSpan sid et).spanStack = t.spanStack ∨
      (t.spanStack ≠ [] ∧ (t.endSpan sid et).spanStack = t.spanStack.dropLast)) ∧
    (t.addCommonAttribute k v).spanStack = t.spanStack ∧
    (t.getSpanStack).1.spanStack = t.spanStack := by
  refine ⟨startSpan_spanStack t n a c, ?_, rfl, rfl⟩
  rw [endSpan_spanStack]
  by_cases h : t.spanStack ≠ [] ∧ t.spanStack.getLast? = some sid
  · exact Or.inr ⟨h.1, by rw [if_pos h]⟩
  · exact Or.inl (by rw [if_neg h])

/-- C9 (amended): the five forwarding mutators of the controller returned
by startSpan (setAttribute, setAttributes, addEvent, setStatus,
updateName) return the same controller, enabling chained calls; end
returns no value (its declared type is void and its body has no return
statement), so end is not chainable. -/
theorem spanRef_chaining (t : Trace) (sid : Nat) (k v n2 : String) (m : List Attr)
    (aot : Option AttrsOrTime) (st : Option Nat) (code : Nat) (et : Option Nat) :
    (spanRefSetAttribute t sid k v).2 = some sid ∧
    (spanRefSetAttributes t sid m).2 = some sid ∧
    (spanRefAddEvent t sid n2 aot st).2 = some sid ∧
    (spanRefSetStatus t sid code).2 = some sid ∧
    (spanRefUpdateName t sid n2).2 = some sid ∧
    (spanRefEnd t sid et).2 = none :=
  ⟨rfl, rfl, rfl, rfl, rfl, rfl⟩

/-- C9 counterexample: the end operation of the controller wrapping the
one span of a fresh trace does not return that controller; it evaluates
to undefined (none), so the claim that all six mutating operations
return the same controller fails on end. -/
theorem spanRef_end_returns_nothing :
    (spanRefEnd (runStarts [("a", [])]) 0 none).2 ≠ some 0 := by decide

/-- C1: the parent a startSpan call hands to the tracer is the last
element of spanStack when the stack is non-empty and none otherwise; on
any sequence of startSpan calls on a fresh manager with no interleaved
end, the i-th started span records the (i-1)-th as parent and the first
records no parent. -/
theorem trace_startSpan_parenting (t : Trace) (n : String) (a : List Attr)
    (c : Option Nat) (calls : List (String × List Attr)) (i : Nat)
    (hi : i < calls.length) :
    (t.startSpan n a c).1.spanParent t.spans.length = t.spanStack.getLast? ∧
    (runStarts calls).spanParent i = if i = 0 then none else some (i - 1) := by
  constructor
  · unfold Trace.spanParent
    rw [startSpan_spans_getElem?_new]
    rfl
  · exact (startsInv_runStarts calls).2 i (by rw [runStarts_spans_length]; exact hi)

/-- Witness for C1 at a concrete input: two spans started on a fresh
manager; the second records the first as parent. -/
theorem trace_startSpan_parenting_witness :
    (Trace.new.startSpan "x" [] none).1.spanParent Trace.new.spans.length
        = Trace.new.spanStack.getLast? ∧
    (runStarts [("a", []), ("b", [])]).spanParent 1
        = if 1 = 0 then none else some (1 - 1) :=
  trace_startSpan_parenting Trace.new "x" [] none [("a", []), ("b", [])] 1
    (by decide)

/-- C2: ending a span that is not the current top of a non-empty stack
tags it span_status = error_not_top, still invokes the SDK end on it
with the given time, and leaves spanStack exactly unchanged; in the
concrete [A, B] scenario, ending A leaves [A, B] with A tagged, B can
then be ended normally, after which the stack is [A]. -/
theorem trace_endSpan_out_of_order (t : Trace) (sid : Nat) (et : Option Nat)
    (hs : sid < t.spans.length) (hne : t.spanStack ≠ [])
    (hnt : t.spanStack.getLast? ≠ some sid) :
    (t.endSpan sid et).spanStack = t.spanStack ∧
    (t.endSpan sid et).spanAttr sid "span_status" = some "error_not_top" ∧
    (t.endSpan sid et).spanEndLog sid = et :: t.spanEndLog sid ∧
    ((runStarts [("A", []), ("B", [])]).endSpan 0 none).spanStack = [0, 1] ∧
    ((runStarts [("A", []), ("B", [])]).endSpan 0 none).spanAttr 0 "span_status"
      = some "error_not_top" ∧
    (((runStarts [("A", []), ("B", [])]).endSpan 0 none).endSpan 1 none).spanStack
      = [0] := by
  have h0 : ¬t.spanStack.length = 0 := fun hc => hne (List.length_eq_zero.mp hc)
  obtain ⟨x, hx⟩ : ∃ x, t.spans[sid]? = some x := ⟨_, List.getElem?_eq_getElem hs⟩
  refine ⟨?_, ?_, ?_, by decide, by decide, by decide⟩
  · rw [endSpan_spanStack, if_neg (fun hc => hnt hc.2)]
  · unfold Trace.spanAttr
    rw [endSpan_spans_getElem?_self, if_neg h0, if_pos hnt, hx]
    simp [SpanData.sdkEnd, SpanData.setAttribute, lookupA]
  · unfold Trace.spanEndLog
    rw [endSpan_spans_getElem?_self, if_neg h0, if_pos hnt, hx]
    simp [SpanData.sdkEnd, SpanData.setAttribute]

/-- Witness for C2 at a concrete input: span 0 is ended while span 1 is
the top of the stack [0, 1]. -/
theorem trace_endSpan_out_of_order_witness :
    ((runStarts [("A", []), ("B", [])]).endSpan 0 (some 7)).spanStack
        = (runStarts [("A", []), ("B", [])]).spanStack ∧
    ((runStarts [("A", []), ("B", [])]).endSpan 0 (some 7)).spanAttr 0 "span_status"
        = some "error_not_top" ∧
    ((runStarts [("A", []), ("B", [])]).endSpan 0 (some 7)).spanEndLog 0
        = some 7 :: (runStarts [("A", []), ("B", [])]).spanEndLog 0 ∧
    ((runStarts [("A", []), ("B", [])]).endSpan 0 none).spanStack = [0, 1] ∧
    ((runStarts [("A", []), ("B", [])]).endSpan 0 none).spanAttr 0 "span_status"
      = some "error_not_top" ∧
    (((runStarts [("A", []), ("B", [])]).endSpan 0 none).endSpan 1 none).spanStack
      = [0] :=
  trace_endSpan_out_of_order (runStarts [("A", []), ("B", [])]) 0 (some 7)
    (by decide) (by decide) (by decide)

/-- C6: ending the current top of the stack removes exactly that entry:
the new stack is the old one without its last element, the removed
entry is the ended handle, the length decreases by exactly one, and on
a fresh manager after any non-empty run of starts, ending the last
started span leaves the stack holding exactly the earlier spans in
order (so the new top is the span started immediately before). -/
theorem trace_endSpan_lifo (t : Trace) (sid : Nat) (et : Option Nat)
    (calls : List (String × List Attr))
    (htop : t.spanStack.getLast? = some sid) (hc : 0 < calls.length) :
    (t.endSpan sid et).spanStack = t.spanStack.dropLast ∧
    (t.endSpan sid et).spanStack ++ [sid] = t.spanStack ∧
    t.spanStack.length = (t.endSpan sid et).spanStack.length + 1 ∧
    ((runStarts calls).endSpan (calls.length - 1) et).spanStack
      = List.range (calls.length - 1) := by
  have hne : t.spanStack ≠ [] := by
    intro hcon
    rw [hcon] at htop
    simp at htop
  have hpop : (t.endSpan sid et).spanStack = t.spanStack.dropLast := by
    rw [endSpan_spanStack, if_pos ⟨hne, htop⟩]
  have hrest : (t.endSpan sid et).spanStack ++ [sid] = t.spanStack := by
    rw [hpop]
    exact List.dropLast_append_getLast? sid (by rw [htop]; rfl)
  refine ⟨hpop, hrest, ?_, ?_⟩
  · have := congrArg List.length hrest
    simp at this
    omega
  · obtain ⟨m, hm⟩ : ∃ m, calls.length = m + 1 :=
      ⟨calls.length - 1, (Nat.succ_pred_eq_of_pos hc).symm⟩
    have hstk : (runStarts calls).spanStack = List.range calls.length := by
      rw [(startsInv_runStarts calls).1, runStarts_spans_length]
    have htop2 : (runStarts calls).spanStack.getLast? = some (calls.length - 1) := by
      rw [hstk, range_getLast?, if_neg (by omega)]
    have hne2 : (runStarts calls).spanStack ≠ [] := by
      intro hcon
      rw [hcon] at htop2
      simp at htop2
    rw [endSpan_spanStack, if_pos ⟨hne2, htop2⟩, hstk, hm]
    rw [List.range_succ, List.dropLast_concat]
    simp

/-- Witness for C6 at a concrete input: ending span 1, the top of the
stack [0, 1]. -/
theorem trace_endSpan_lifo_witness :
    ((runStarts [("A", []), ("B", [])]).endSpan 1 none).spanStack
        = (runStarts [("A", []), ("B", [])]).spanStack.dropLast ∧
    ((runStarts [("A", []), ("B", [])]).endSpan 1 none).spanStack ++ [1]
        = (runStarts [("A", []), ("B", [])]).spanStack ∧
    (runStarts [("A", []), ("B", [])]).spanStack.length
        = ((runStarts [("A", []), ("B", [])]).endSpan 1 none).spanStack.length + 1 ∧
    ((runStarts [("A", []), ("B", [])]).endSpan
        ([("A", ([] : List Attr)), ("B", [])].length - 1) none).spanStack
      = List.range ([("A", ([] : List Attr)), ("B", [])].length - 1) :=
  trace_endSpan_lifo (runStarts [("A", []), ("B", [])]) 1 none
    [("A", []), ("B", [])] (by decide) (by decide)

/-- C3: misuse of end is non-fatal and the end always completes: ending
with an empty stack tags the span span_status = error_empty_stack and
changes no state beyond that span; ending the top span and then ending
the same span again mutates the stack only on the first call (the
duplicate-free stack a manager maintains is assumed); and in every one
of the three endSpan branches the SDK end runs on the span with the
given end time (none modelling an omitted time, for the SDK default). -/
theorem trace_endSpan_nonfatal (t : Trace) (sid : Nat) (et et2 : Option Nat)
    (hs : sid < t.spans.length) :
    (t.spanStack = [] →
      (t.endSpan sid et).spanAttr sid "span_status" = some "error_empty_stack" ∧
      (t.endSpan sid et).spanStack = []) ∧
    (t.spanStack.getLast? = some sid → t.spanStack.Nodup →
      ((t.endSpan sid et).endSpan sid et2).spanStack = (t.endSpan sid et).spanStack) ∧
    (t.endSpan sid et).spanEndLog sid = et :: t.spanEndLog sid := by
  obtain ⟨x, hx⟩ : ∃ x, t.spans[sid]? = some x := ⟨_, List.getElem?_eq_getElem hs⟩
  refine ⟨?_, ?_, ?_⟩
  · intro he
    have h0 : t.spanStack.length = 0 := by rw [he]; rfl
    constructor
    · unfold Trace.spanAttr
      rw [endSpan_spans_getElem?_self, if_pos h0, hx]
      simp [SpanData.sdkEnd, SpanData.setAttribute, lookupA]
    · rw [endSpan_spanStack, if_neg (fun hcon => hcon.1 he)]
      exact he
  · intro htop hnd
    have hne : t.spanStack ≠ [] := by
      intro hcon
      rw [hcon] at htop
      simp at htop
    have hpop : (t.endSpan sid et).spanStack = t.spanStack.dropLast := by
      rw [endSpan_spanStack, if_pos ⟨hne, htop⟩]
    have hsplit : t.spanStack.dropLast ++ [sid] = t.spanStack :=
      List.dropLast_append_getLast? sid (by rw [htop]; rfl)
    have hnotmem : sid ∉ t.spanStack.dropLast := by
      have hnd2 : (t.spanStack.dropLast ++ [sid]).Nodup := by rw [hsplit]; exact hnd
      rw [List.nodup_append] at hnd2
      intro hc
      exact hnd2.2.2 hc (List.mem_singleton.mpr rfl)
    have hcond : ¬((t.endSpan sid et).spanStack ≠ [] ∧
        (t.endSpan sid et).spanStack.getLast? = some sid) := by
      rintro ⟨hne2, htop2⟩
      rw [hpop] at htop2
      obtain ⟨hnenil, hEq⟩ :=
        List.mem_getLast?_eq_getLast (show sid ∈ _ by rw [htop2]; rfl)
      exact hnotmem (hEq ▸ List.getLast_mem hnenil)
    rw [endSpan_spanStack, if_neg hcond]
  · unfold Trace.spanEndLog
    rw [endSpan_spans_getElem?_self]
    by_cases h0 : t.spanStack.length = 0
    · rw [if_pos h0, hx]
      simp [SpanData.sdkEnd, SpanData.setAttribute, Trace.spanEndLog, hx]
    · by_cases h1 : t.spanStack.getLast? ≠ some sid
      · rw [if_neg h0, if_pos h1, hx]
        simp [SpanData.sdkEnd, SpanData.setAttribute, Trace.spanEndLog, hx]
      · rw [if_neg h0, if_neg h1, hx]
        simp [SpanData.sdkEnd, Trace.spanEndLog, hx]

/-- Witness for C3 at a concrete input: the one open span of a fresh
trace is ended and then ended a second time. -/
theorem trace_endSpan_nonfatal_witness :
    ((runStarts [("A", [])]).spanStack = [] →
      ((runStarts [("A", [])]).endSpan 0 none).spanAttr 0 "span_status"
          = some "error_empty_stack" ∧
      ((runStarts [("A", [])]).endSpan 0 none).spanStack = []) ∧
    ((runStarts [("A", [])]).spanStack.getLast? = some 0 →
      (runStarts [("A", [])]).spanStack.Nodup →
      (((runStarts [("A", [])]).endSpan 0 none).endSpan 0 (some 3)).spanStack
        = ((runStarts [("A", [])]).endSpan 0 none).spanStack) ∧
    ((runStarts [("A", [])]).endSpan 0 none).spanEndLog 0
      = none :: (runStarts [("A", [])]).spanEndLog 0 :=
  trace_endSpan_nonfatal (runStarts [("A", [])]) 0 none (some 3) (by decide)

/-- C4: after addCommonAttribute(k, v), every span handle that was in
spanStack at the time of the call carries k = v; every span started
afterwards by the same manager receives k = v during startSpan (even if
the caller supplies an initial value for k); and a span whose handle is
not in spanStack (in particular one already ended and popped) is left
untouched by the call. -/
theorem trace_addCommonAttribute_retroactive (t : Trace) (k v : String) (sid : Nat)
    (n : String) (a : List Attr) (c : Option Nat) (hs : sid < t.spans.length) :
    (sid ∈ t.spanStack → (t.addCommonAttribute k v).spanAttr sid k = some v) ∧
    ((t.addCommonAttribute k v).startSpan n a c).1.spanAttr t.spans.length k
      = some v ∧
    (sid ∉ t.spanStack → (t.addCommonAttribute k v).spans[sid]? = t.spans[sid]?) := by
  refine ⟨?_, ?_, ?_⟩
  · intro hm
    obtain ⟨s, h1, h2⟩ := foldTag_attr_mem t.spanStack t.spans k v sid hs hm
    unfold Trace.spanAttr
    have h1' : (t.addCommonAttribute k v).spans[sid]? = some s := h1
    rw [h1']
    simpa using h2
  · unfold Trace.spanAttr
    have h3 := startSpan_spans_getElem?_new (t.addCommonAttribute k v) n a c
    rw [addCommonAttribute_spans_length, addCommonAttribute_commonAttributes] at h3
    rw [h3]
    simp only [Option.some_bind]
    rw [lookupA_append, lookupA_setCommon_reverse]
  · intro hnm
    exact foldTag_getElem?_not_mem t.spanStack t.spans k v sid hnm

/-- Witness for C4 at a concrete input: span 0 is open when the common
attribute is added, and a second span is started afterwards with a
conflicting initial value. -/
theorem trace_addCommonAttribute_retroactive_witness :
    (0 ∈ (runStarts [("A", [])]).spanStack →
      ((runStarts [("A", [])]).addCommonAttribute "k" "v").spanAttr 0 "k"
        = some "v") ∧
    (((runStarts [("A", [])]).addCommonAttribute "k" "v").startSpan "B"
        [("k", "init")] none).1.spanAttr (runStarts [("A", [])]).spans.length "k"
      = some "v" ∧
    (0 ∉ (runStarts [("A", [])]).spanStack →
      ((runStarts [("A", [])]).addCommonAttribute "k" "v").spans[0]?
        = (runStarts [("A", [])]).spans[0]?) :=
  trace_addCommonAttribute_retroactive (runStarts [("A", [])]) "k" "v" 0 "B"
    [("k", "init")] none (by decide)

/-- C5: when a span is started while commonAttributes binds k (keys in
the map are unique by construction of the map) the common attributes
are applied during startSpan after the creation-time initial attributes,
and with last write wins the value the new span ends up carrying for k
is the common one, whatever initial value the caller supplied for k. -/
theorem trace_startSpan_common_precedence (t : Trace) (n : String) (a : List Attr)
    (c : Option Nat) (k v : String)
    (hu : (t.commonAttributes.map Prod.fst).Nodup)
    (hk : lookupA k t.commonAttributes = some v) :
    (t.startSpan n a c).1.spanAttr t.spans.length k = some v := by
  unfold Trace.spanAttr
  rw [startSpan_spans_getElem?_new]
  simp only [Option.some_bind]
  rw [lookupA_append, lookupA_reverse_of_nodup k _ hu, hk]

/-- Witness for C5 at a concrete input: the caller supplies k = init
while the common attributes hold k = common; the span ends up carrying
k = common. -/
theorem trace_startSpan_common_precedence_witness :
    ((Trace.new.addCommonAttribute "k" "common").startSpan "A" [("k", "init")]
        none).1.spanAttr (Trace.new.addCommonAttribute "k" "common").spans.length "k"
      = some "common" :=
  trace_startSpan_common_precedence (Trace.new.addCommonAttribute "k" "common")
    "A" [("k", "init")] none "k" "common" (by decide) (by decide)

/-- C7: calling addCommonAttribute with an already-used key k replaces
the stored value for k (the key set of commonAttributes is unchanged,
so no duplicate entry appears, and uniqueness of keys is preserved),
applies the new value to every span currently in spanStack, and leaves
every span not in spanStack (in particular every already-ended and
popped span) untouched. -/
theorem trace_addCommonAttribute_overwrite (t : Trace) (k v : String) (sid : Nat)
    (hs : sid < t.spans.length) (hk : k ∈ t.commonAttributes.map Prod.fst) :
    lookupA k (t.addCommonAttribute k v).commonAttributes = some v ∧
    (t.addCommonAttribute k v).commonAttributes.map Prod.fst
      = t.commonAttributes.map Prod.fst ∧
    ((t.commonAttributes.map Prod.fst).Nodup →
      ((t.addCommonAttribute k v).commonAttributes.map Prod.fst).Nodup) ∧
    (sid ∈ t.spanStack → (t.addCommonAttribute k v).spanAttr sid k = some v) ∧
    (sid ∉ t.spanStack → (t.addCommonAttribute k v).spans[sid]? = t.spans[sid]?) := by
  have hkeys : (t.addCommonAttribute k v).commonAttributes.map Prod.fst
      = t.commonAttributes.map Prod.fst := by
    rw [addCommonAttribute_commonAttributes]
    exact setCommon_keys_of_mem t.commonAttributes k v hk
  refine ⟨lookupA_setCommon t.commonAttributes k v, hkeys, ?_, ?_, ?_⟩
  · intro hnd
    rw [hkeys]
    exact hnd
  · intro hm
    obtain ⟨s, h1, h2⟩ := foldTag_attr_mem t.spanStack t.spans k v sid hs hm
    unfold Trace.spanAttr
    have h1' : (t.addCommonAttribute k v).spans[sid]? = some s := h1
    rw [h1']
    simpa using h2
  · intro hnm
    exact foldTag_getElem?_not_mem t.spanStack t.spans k v sid hnm

/-- Witness for C7 at a concrete input: the key k, first set to old, is
set again to new while span 0 is open. -/
theorem trace_addCommonAttribute_overwrite_witness :
    lookupA "k"
        (((runStarts [("A", [])]).addCommonAttribute "k" "old").addCommonAttribute
          "k" "new").commonAttributes = some "new" ∧
    (((runStarts [("A", [])]).addCommonAttribute "k" "old").addCommonAttribute
        "k" "new").commonAttributes.map Prod.fst
      = ((runStarts [("A", [])]).addCommonAttribute "k"
          "old").commonAttributes.map Prod.fst ∧
    ((((runStarts [("A", [])]).addCommonAttribute "k"
        "old").commonAttributes.map Prod.fst).Nodup →
      ((((runStarts [("A", [])]).addCommonAttribute "k" "old").addCommonAttribute
          "k" "new").commonAttributes.map Prod.fst).Nodup) ∧
    (0 ∈ ((runStarts [("A", [])]).addCommonAttribute "k" "old").spanStack →
      (((runStarts [("A", [])]).addCommonAttribute "k" "old").addCommonAttribute
          "k" "new").spanAttr 0 "k" = some "new") ∧
    (0 ∉ ((runStarts [("A", [])]).addCommonAttribute "k" "old").spanStack →
      (((runStarts [("A", [])]).addCommonAttribute "k" "old").addCommonAttribute
          "k" "new").spans[0]?
        = ((runStarts [("A", [])]).addCommonAttribute "k" "old").spans[0]?) :=
  trace_addCommonAttribute_overwrite
    ((runStarts [("A", [])]).addCommonAttribute "k" "old") "k" "new" 0
    (by decide) (by decide)

/-- C8: getSpanStack returns the current stack contents unchanged and
leaves the manager state unchanged; on the array heap, the spread copy
allocates a reference distinct from the stack's own array whose
contents equal the stack's, and overwriting the returned array with any
contents leaves the stack array exactly as it was. -/
theorem trace_getSpanStack_snapshot (t : Trace) (h : Heap) (stackRef : Nat)
    (l : List Nat) (hv : stackRef < h.arrays.length) :
    t.getSpanStack = (t, t.spanStack) ∧
    (getSpanStackAlloc h stackRef).1.read (getSpanStackAlloc h stackRef).2
      = h.read stackRef ∧
    (getSpanStackAlloc h stackRef).2 ≠ stackRef ∧
    ((getSpanStackAlloc h stackRef).1.write (getSpanStackAlloc h stackRef).2
        l).read stackRef = h.read stackRef ∧
    (getSpanStackAlloc h stackRef).1.read stackRef = h.read stackRef := by
  have hne : stackRef ≠ h.arrays.length := Nat.ne_of_lt hv
  have hold : (h.arrays ++ [h.read stackRef])[stackRef]? = h.arrays[stackRef]? :=
    List.getElem?_append_left hv
  refine ⟨rfl, ?_, Ne.symm hne, ?_, ?_⟩
  · show ((h.arrays ++ [h.read stackRef])[h.arrays.length]?).getD [] = _
    rw [List.getElem?_concat_length]
    rfl
  · show ((modifyAt (h.arrays ++ [h.read stackRef]) h.arrays.length
        (fun _ => l))[stackRef]?).getD [] = _
    rw [modifyAt_getElem?_ne _ _ _ _ hne, hold]
    rfl
  · show ((h.arrays ++ [h.read stackRef])[stackRef]?).getD [] = _
    rw [hold]
    rfl

/-- Witness for C8 at a concrete input: a heap holding one array, the
stack [3, 4], copied and then overwritten with [9]. -/
theorem trace_getSpanStack_snapshot_witness :
    (runStarts [("A", [])]).getSpanStack
        = (runStarts [("A", [])], (runStarts [("A", [])]).spanStack) ∧
    (getSpanStackAlloc (Heap.mk [[3, 4]]) 0).1.read
        (getSpanStackAlloc (Heap.mk [[3, 4]]) 0).2 = (Heap.mk [[3, 4]]).read 0 ∧
    (getSpanStackAlloc (Heap.mk [[3, 4]]) 0).2 ≠ 0 ∧
    ((getSpanStackAlloc (Heap.mk [[3, 4]]) 0).1.write
        (getSpanStackAlloc (Heap.mk [[3, 4]]) 0).2 [9]).read 0
      = (Heap.mk [[3, 4]]).read 0 ∧
    (getSpanStackAlloc (Heap.mk [[3, 4]]) 0).1.read 0 = (Heap.mk [[3, 4]]).read 0 :=
  trace_getSpanStack_snapshot (runStarts [("A", [])]) (Heap.mk [[3, 4]]) 0 [9]
    (by decide)
